import Mathlib

/-!
Verification of the password-generator core of `app_senhas_gui.py`
(repository GeradorDeSenhas).

The Python module draws randomness from `secrets` / `secrets.SystemRandom`.
We embed that source of randomness as an infinite stream of natural numbers
`RandS = Nat → Nat`: each call to `secrets.choice(seq)` consumes one stream
value `r` and returns `seq[r % len(seq)]` (every index sequence is reachable,
so quantifying over all streams covers every possible run), and
`sysrand.shuffle` consumes one stream value per Fisher-Yates step.
Errors raised with `raise ValueError(...)` are embedded as `Except.error`
of an enumeration `PwError` carrying the data interpolated into the message.
The unbounded `while` loop of the unique-batch path is embedded with an
explicit fuel parameter; running out of fuel yields `none`.
-/

/-- The stream of values produced by the secure random source. -/
def RandS : Type := Nat → Nat

/-- Drop the first `k` values of the stream. -/
def shiftS (s : RandS) (k : Nat) : RandS := fun i => s (i + k)

/-- Python `string.digits`. -/
def digits : List Char := "0123456789".toList

/-- Python `string.ascii_uppercase`. -/
def ascii_uppercase : List Char := "ABCDEFGHIJKLMNOPQRSTUVWXYZ".toList

/-- Python `string.ascii_lowercase`. -/
def ascii_lowercase : List Char := "abcdefghijklmnopqrstuvwxyz".toList

/-- `CHARSET = string.digits + string.ascii_uppercase + string.ascii_lowercase`. -/
def CHARSET : List Char := digits ++ ascii_uppercase ++ ascii_lowercase

/-- `MIN_LENGTH = 1`. -/
def MIN_LENGTH : Int := 1

/-- `MAX_LENGTH = 64`. -/
def MAX_LENGTH : Int := 64

/-- `secrets.choice(l)` where the secure source produced the value `r`:
the element at the uniformly drawn index `r % len(l)`. -/
def choiceAt (l : List Char) (r : Nat) : Char := l.getD (r % l.length) 'A'

/-- The errors raised by `gerar_senha` / `gerar_lista` (each a Python
`ValueError` with a fixed message; `infeasibleUniqueRequest` interpolates
the requested quantity and the exact number of combinations into its
message, so the constructor carries both). -/
inductive PwError where
  | invalidLength : PwError
  | insufficientLengthForPolicy : PwError
  | invalidCount : PwError
  | infeasibleUniqueRequest (qtd : Int) (total_combinacoes : Nat) : PwError
  deriving DecidableEq

/-- One in-place swap `x[i], x[j] = x[j], x[i]` on a list. -/
def swapL {α : Type} (l : List α) (i j : Nat) : List α :=
  match l.get? i, l.get? j with
  | some a, some b => (l.set i b).set j a
  | _, _ => l

/-- The descending loop of `random.shuffle`: at index `i+1` it draws
`j = _randbelow(i+2)`, swaps, and recurses with the next stream value. -/
def fyAux {α : Type} (s : RandS) : Nat → Nat → List α → List α
  | _, 0, l => l
  | k, i + 1, l => fyAux s (k + 1) i (swapL l (i + 1) (s k % (i + 2)))

/-- `sysrand.shuffle(l)`: Fisher-Yates driven by the stream `s`, working
down from index `len(l) - 1` to index `1`. -/
def fisherYates {α : Type} (l : List α) (s : RandS) : List α :=
  fyAux s 0 (l.length - 1) l

/-- The list `partes` built by the `require_all` branch of `gerar_senha`:
one digit, one uppercase, one lowercase, then draws from the full
`CHARSET` until the list has `n` elements. -/
def partes (n : Nat) (s : RandS) : List Char :=
  [choiceAt digits (s 0), choiceAt ascii_uppercase (s 1), choiceAt ascii_lowercase (s 2)]
    ++ (List.range (n - 3)).map (fun i => choiceAt CHARSET (s (3 + i)))

/-- The generation body of `gerar_senha` after validation: either `n`
independent draws from `CHARSET` joined in order, or the `partes` list
shuffled by `sysrand.shuffle` (which consumes the stream after the `n`
draws that built `partes`). -/
def senhaBody (n : Nat) (require_all : Bool) (s : RandS) : List Char :=
  if require_all then fisherYates (partes n s) (shiftS s n)
  else (List.range n).map (fun i => choiceAt CHARSET (s i))

/-- Number of stream values one call of the generation body consumes:
`n` character draws, plus `n - 1` shuffle draws when `require_all`. -/
def drawCost (n : Nat) (require_all : Bool) : Nat :=
  if require_all then n + (n - 1) else n

/-- `gerar_senha(length, require_all)` on the stream `s`: validates the
length range, then the composition-policy minimum, then generates. -/
def gerar_senha (length : Int) (require_all : Bool) (s : RandS) :
    Except PwError (List Char) :=
  if length < MIN_LENGTH ∨ MAX_LENGTH < length then .error .invalidLength
  else if require_all = true ∧ length < 3 then .error .insufficientLengthForPolicy
  else .ok (senhaBody length.toNat require_all s)

/-- `senhas.add(pw)` on the Python set, observed as the list of elements
in insertion order: a duplicate leaves the set unchanged. -/
def insertNew (pw : List Char) (senhas : List (List Char)) : List (List Char) :=
  if pw ∈ senhas then senhas else senhas ++ [pw]

/-- The `while len(senhas) < qtd` loop of the unique branch of
`gerar_lista`, with explicit fuel; `none` means the fuel ran out before
the set reached `qtd` elements. -/
def uniqueLoop (qtd n : Nat) (require_all : Bool) :
    RandS → Nat → List (List Char) → Option (List (List Char))
  | _, 0, senhas => if qtd ≤ senhas.length then some senhas else none
  | s, fuel + 1, senhas =>
    if qtd ≤ senhas.length then some senhas
    else uniqueLoop qtd n require_all (shiftS s (drawCost n require_all)) fuel
      (insertNew (senhaBody n require_all s) senhas)

/-- The sequence of passwords the unique loop would draw: `fuel` successive
calls of the generation body, each on the stream left by the previous one. -/
def drawSeq (n : Nat) (require_all : Bool) (s : RandS) : Nat → List (List Char)
  | 0 => []
  | fuel + 1 => senhaBody n require_all s
      :: drawSeq n require_all (shiftS s (drawCost n require_all)) fuel

/-- Number of distinct values in a list of passwords (the size the Python
set would reach after adding them all). -/
def distinctCount (l : List (List Char)) : Nat :=
  (l.foldl (fun senhas pw => insertNew pw senhas) []).length

/-- `gerar_lista(qtd, length, unique, require_all)` on the stream `s` with
the given fuel for the unique loop: validates the count, the length range,
the composition-policy minimum, then (when `unique`) the feasibility check
against `total_combinacoes = len(CHARSET) ** length`, then generates. -/
def gerar_lista (qtd length : Int) (unique require_all : Bool) (s : RandS)
    (fuel : Nat) : Except PwError (Option (List (List Char))) :=
  if qtd < 1 ∨ 10000 < qtd then .error .invalidCount
  else if length < MIN_LENGTH ∨ MAX_LENGTH < length then .error .invalidLength
  else if require_all = true ∧ length < 3 then .error .insufficientLengthForPolicy
  else if unique = true ∧ (CHARSET.length ^ length.toNat : Int) < qtd then
    .error (.infeasibleUniqueRequest qtd (CHARSET.length ^ length.toNat))
  else if unique = true then
    .ok (uniqueLoop qtd.toNat length.toNat require_all s fuel [])
  else
    .ok (some ((List.range qtd.toNat).map
      (fun i => senhaBody length.toNat require_all
        (shiftS s (i * drawCost length.toNat require_all)))))

/-- The single-password contract: length `n`, every character in the
alphabet, and (under `require_all`) at least one digit, one uppercase and
one lowercase character. -/
def validPassword (n : Nat) (require_all : Bool) (pw : List Char) : Prop :=
  pw.length = n ∧ (∀ c ∈ pw, c ∈ CHARSET) ∧
    (require_all = true →
      (∃ c ∈ pw, c ∈ digits) ∧ (∃ c ∈ pw, c ∈ ascii_uppercase) ∧
        (∃ c ∈ pw, c ∈ ascii_lowercase))

instance (n : Nat) (require_all : Bool) (pw : List Char) :
    Decidable (validPassword n require_all pw) := by
  unfold validPassword; infer_instance

/-- The all-zeros stream, used as a concrete run of the random source. -/
def zeroS : RandS := fun _ => 0

/-- The identity stream, used as a concrete run of the random source. -/
def idS : RandS := fun i => i

/-- Proposition: on the all-zeros run of the random source the feasible
unique request `qtd = 2, length = 1` (capacity 62) never completes: the
rejection-sampling loop exhausts every attempt budget without a result. -/
def divergesOnZeroS : Prop :=
  ∀ fuel, gerar_lista 2 1 true false zeroS fuel = .ok none

/-- Proposition: on the all-zeros run of the random source the feasible
unique request `qtd = 3, length = 1` (capacity 62) never completes: the
rejection-sampling loop exhausts every attempt budget without a result. -/
def divergesOnZeroS3 : Prop :=
  ∀ fuel, gerar_lista 3 1 true false zeroS fuel = .ok none

theorem choiceAt_mem {l : List Char} (h : l ≠ []) (r : Nat) : choiceAt l r ∈ l := by
  have hlen : 0 < l.length := List.length_pos.mpr h
  have hlt : r % l.length < l.length := Nat.mod_lt _ hlen
  unfold choiceAt
  rw [List.getD_eq_getElem?_getD, List.getElem?_eq_getElem hlt]
  exact List.getElem_mem hlt

theorem cons_set_perm {α : Type} : ∀ (l : List α) (j : Nat) (b x : α),
    l.get? j = some b → List.Perm (b :: l.set j x) (x :: l)
  | [], _, _, _, h => by simp at h
  | a :: t, 0, b, x, h => by
    simp only [List.get?] at h
    injection h with h
    rw [← h]
    exact List.Perm.swap x a t
  | a :: t, j + 1, b, x, h => by
    simp only [List.get?] at h
    have ih := cons_set_perm t j b x h
    have h1 : List.Perm (b :: a :: t.set j x) (a :: b :: t.set j x) :=
      List.Perm.swap a b _
    have h2 : List.Perm (a :: b :: t.set j x) (a :: x :: t) := List.Perm.cons a ih
    have h3 : List.Perm (a :: x :: t) (x :: a :: t) := List.Perm.swap x a t
    exact h1.trans (h2.trans h3)

theorem set_set_swap_perm {α : Type} : ∀ (l : List α) (i j : Nat) (a b : α),
    l.get? i = some a → l.get? j = some b →
    List.Perm ((l.set i b).set j a) l
  | [], i, _, _, _, hi, _ => by simp at hi
  | x :: t, 0, 0, a, b, hi, _ => by
    simp only [List.get?] at hi
    injection hi with hi
    rw [hi]
    exact List.Perm.refl _
  | x :: t, 0, j + 1, a, b, hi, hj => by
    simp only [List.get?] at hi hj
    injection hi with hi
    rw [hi]
    exact cons_set_perm t j b a hj
  | x :: t, i + 1, 0, a, b, hi, hj => by
    simp only [List.get?] at hi hj
    injection hj with hj
    rw [hj]
    exact cons_set_perm t i a b hi
  | x :: t, i + 1, j + 1, a, b, hi, hj => by
    simp only [List.get?] at hi hj
    exact List.Perm.cons x (set_set_swap_perm t i j a b hi hj)

theorem swapL_perm {α : Type} (l : List α) (i j : Nat) :
    List.Perm (swapL l i j) l := by
  unfold swapL
  cases hi : l.get? i with
  | none => exact List.Perm.refl l
  | some a =>
    cases hj : l.get? j with
    | none => exact List.Perm.refl l
    | some b => exact set_set_swap_perm l i j a b hi hj

theorem fyAux_perm {α : Type} (s : RandS) : ∀ (i k : Nat) (l : List α),
    List.Perm (fyAux s k i l) l
  | 0, _, l => List.Perm.refl l
  | i + 1, k, l =>
    List.Perm.trans (fyAux_perm s i (k + 1) _) (swapL_perm l (i + 1) (s k % (i + 2)))

theorem fisherYates_perm {α : Type} (l : List α) (s : RandS) :
    List.Perm (fisherYates l s) l :=
  fyAux_perm s (l.length - 1) 0 l

theorem senhaBody_true (n : Nat) (s : RandS) :
    senhaBody n true s = fisherYates (partes n s) (shiftS s n) := rfl

theorem senhaBody_false (n : Nat) (s : RandS) :
    senhaBody n false s = (List.range n).map (fun i => choiceAt CHARSET (s i)) := rfl

theorem digits_subset_CHARSET : ∀ c ∈ digits, c ∈ CHARSET := by decide

theorem upper_subset_CHARSET : ∀ c ∈ ascii_uppercase, c ∈ CHARSET := by decide

theorem lower_subset_CHARSET : ∀ c ∈ ascii_lowercase, c ∈ CHARSET := by decide

theorem partes_length (n : Nat) (s : RandS) : (partes n s).length = 3 + (n - 3) := by
  simp [partes]
  omega

theorem partes_mem_CHARSET (n : Nat) (s : RandS) :
    ∀ c ∈ partes n s, c ∈ CHARSET := by
  intro c hc
  simp only [partes, List.mem_append, List.mem_cons, List.mem_map,
    List.mem_range, List.not_mem_nil, or_false] at hc
  rcases hc with (h | h | h) | ⟨i, _, h⟩
  · exact h ▸ digits_subset_CHARSET _ (choiceAt_mem (by decide) _)
  · exact h ▸ upper_subset_CHARSET _ (choiceAt_mem (by decide) _)
  · exact h ▸ lower_subset_CHARSET _ (choiceAt_mem (by decide) _)
  · exact h ▸ choiceAt_mem (by decide) _

theorem senhaBody_length (n : Nat) (ra : Bool) (s : RandS)
    (h : ra = true → 3 ≤ n) : (senhaBody n ra s).length = n := by
  cases ra with
  | false => simp [senhaBody_false]
  | true =>
    have h3 : 3 ≤ n := h rfl
    rw [senhaBody_true,
      (fisherYates_perm (partes n s) (shiftS s n)).length_eq, partes_length]
    omega

theorem senhaBody_mem_CHARSET (n : Nat) (ra : Bool) (s : RandS) :
    ∀ c ∈ senhaBody n ra s, c ∈ CHARSET := by
  intro c hc
  cases ra with
  | false =>
    rw [senhaBody_false] at hc
    simp only [List.mem_map, List.mem_range] at hc
    obtain ⟨i, _, h⟩ := hc
    exact h ▸ choiceAt_mem (by decide) _
  | true =>
    rw [senhaBody_true] at hc
    exact partes_mem_CHARSET n s c
      ((fisherYates_perm (partes n s) (shiftS s n)).mem_iff.mp hc)

theorem senhaBody_classes (n : Nat) (s : RandS) :
    (∃ c ∈ senhaBody n true s, c ∈ digits) ∧
      (∃ c ∈ senhaBody n true s, c ∈ ascii_uppercase) ∧
        (∃ c ∈ senhaBody n true s, c ∈ ascii_lowercase) := by
  have hperm := fisherYates_perm (partes n s) (shiftS s n)
  have hmem : ∀ c ∈ partes n s, c ∈ senhaBody n true s := by
    intro c hc
    rw [senhaBody_true]
    exact hperm.mem_iff.mpr hc
  refine ⟨⟨choiceAt digits (s 0), ?_, choiceAt_mem (by decide) _⟩,
    ⟨choiceAt ascii_uppercase (s 1), ?_, choiceAt_mem (by decide) _⟩,
    ⟨choiceAt ascii_lowercase (s 2), ?_, choiceAt_mem (by decide) _⟩⟩ <;>
  · apply hmem
    simp [partes]

theorem senhaBody_valid (n : Nat) (ra : Bool) (s : RandS)
    (h : ra = true → 3 ≤ n) : validPassword n ra (senhaBody n ra s) := by
  refine ⟨senhaBody_length n ra s h, senhaBody_mem_CHARSET n ra s, ?_⟩
  intro hra
  subst hra
  exact senhaBody_classes n s

theorem gerar_senha_ok_inv {length : Int} {ra : Bool} {s : RandS} {pw : List Char}
    (h : gerar_senha length ra s = .ok pw) :
    MIN_LENGTH ≤ length ∧ length ≤ MAX_LENGTH ∧ (ra = true → 3 ≤ length) ∧
      pw = senhaBody length.toNat ra s := by
  by_cases h1 : length < MIN_LENGTH ∨ MAX_LENGTH < length
  · rw [gerar_senha, if_pos h1] at h
    exact Except.noConfusion h
  · by_cases h2 : ra = true ∧ length < 3
    · rw [gerar_senha, if_neg h1, if_pos h2] at h
      exact Except.noConfusion h
    · rw [gerar_senha, if_neg h1, if_neg h2] at h
      injection h with h
      push_neg at h1 h2
      refine ⟨h1.1, h1.2, ?_, h.symm⟩
      intro hra
      exact h2 hra

theorem gerar_senha_eq_ok (length : Int) (ra : Bool) (s : RandS)
    (h1 : MIN_LENGTH ≤ length) (h2 : length ≤ MAX_LENGTH) (h3 : ra = true → 3 ≤ length) :
    gerar_senha length ra s = .ok (senhaBody length.toNat ra s) := by
  rw [gerar_senha, if_neg (by simp only [MIN_LENGTH, MAX_LENGTH] at h1 h2 ⊢; omega),
    if_neg ?_]
  rintro ⟨hra, hlt⟩
  exact absurd (h3 hra) (by omega)

/-- Claim C1: for every length `L` with `3 ≤ L ≤ 64`, `gerar_senha` with
`require_all = true` succeeds on every run of the random source and returns
a password of exactly `L` characters containing at least one digit, at
least one uppercase letter and at least one lowercase letter. -/
theorem claim_C1_require_all_coverage (L : Int) (h3 : 3 ≤ L) (h64 : L ≤ 64)
    (s : RandS) :
    ∃ pw, gerar_senha L true s = .ok pw ∧ pw.length = L.toNat ∧
      (∃ c ∈ pw, c ∈ digits) ∧ (∃ c ∈ pw, c ∈ ascii_uppercase) ∧
        (∃ c ∈ pw, c ∈ ascii_lowercase) := by
  refine ⟨senhaBody L.toNat true s,
    gerar_senha_eq_ok L true s (by rw [MIN_LENGTH]; omega) (by rw [MAX_LENGTH]; omega)
      (fun _ => h3), ?_, ?_⟩
  · exact senhaBody_length L.toNat true s (fun _ => by omega)
  · exact senhaBody_classes L.toNat s

/-- Claim C1, witness: the concrete run at `L = 3` on the all-zeros stream. -/
theorem claim_C1_witness :
    ∃ pw, gerar_senha 3 true zeroS = .ok pw ∧ pw.length = (3 : Int).toNat ∧
      (∃ c ∈ pw, c ∈ digits) ∧ (∃ c ∈ pw, c ∈ ascii_uppercase) ∧
        (∃ c ∈ pw, c ∈ ascii_lowercase) :=
  claim_C1_require_all_coverage 3 (by decide) (by decide) zeroS

/-- Claim C2: for every length `L` with `1 ≤ L ≤ 64`, `gerar_senha` with
`require_all = false` succeeds on every run of the random source and
returns a password of exactly `L` characters, each drawn from the
62-character alphabet `CHARSET`. -/
theorem claim_C2_plain_generation (L : Int) (h1 : 1 ≤ L) (h64 : L ≤ 64)
    (s : RandS) :
    ∃ pw, gerar_senha L false s = .ok pw ∧ pw.length = L.toNat ∧
      ∀ c ∈ pw, c ∈ CHARSET := by
  refine ⟨senhaBody L.toNat false s,
    gerar_senha_eq_ok L false s (by rw [MIN_LENGTH]; omega) (by rw [MAX_LENGTH]; omega)
      (fun h => Bool.noConfusion h), ?_, senhaBody_mem_CHARSET L.toNat false s⟩
  exact senhaBody_length L.toNat false s (fun h => Bool.noConfusion h)

/-- Claim C2, witness: the concrete run at `L = 5` on the identity stream. -/
theorem claim_C2_witness :
    ∃ pw, gerar_senha 5 false idS = .ok pw ∧ pw.length = (5 : Int).toNat ∧
      ∀ c ∈ pw, c ∈ CHARSET :=
  claim_C2_plain_generation 5 (by decide) (by decide) idS

/-- Claim C6: `gerar_senha` rejects every length outside `[1, 64]` with
`invalidLength` whatever the `require_all` flag (the range check runs
first, so `length = 0` with `require_all = true` yields `invalidLength`),
and rejects lengths 1 and 2 under `require_all = true` with
`insufficientLengthForPolicy`. -/
theorem claim_C6_length_validation (L : Int) (ra : Bool) (s : RandS) :
    (L < 1 ∨ 64 < L → gerar_senha L ra s = .error .invalidLength) ∧
      ((L = 1 ∨ L = 2) → gerar_senha L true s = .error .insufficientLengthForPolicy) := by
  constructor
  · intro h
    rw [gerar_senha, if_pos (by rw [MIN_LENGTH, MAX_LENGTH]; omega)]
  · intro h
    rw [gerar_senha, if_neg (by rw [MIN_LENGTH, MAX_LENGTH]; omega),
      if_pos ⟨rfl, by omega⟩]

/-- Claim C6, witness: length 0 with `require_all = true` is rejected as
`invalidLength`, length 65 likewise, and length 2 with
`require_all = true` as `insufficientLengthForPolicy`. -/
theorem claim_C6_witness :
    gerar_senha 0 true zeroS = .error .invalidLength ∧
      gerar_senha 65 false zeroS = .error .invalidLength ∧
        gerar_senha 2 true zeroS = .error .insufficientLengthForPolicy :=
  ⟨(claim_C6_length_validation 0 true zeroS).1 (by decide),
    (claim_C6_length_validation 65 false zeroS).1 (by decide),
    (claim_C6_length_validation 2 true zeroS).2 (by decide)⟩

theorem CHARSET_len : CHARSET.length = 62 := rfl

theorem gerar_lista_eq_unique (qtd L : Int) (ra : Bool) (s : RandS) (fuel : Nat)
    (h1 : 1 ≤ qtd) (h2 : qtd ≤ 10000) (h3 : 1 ≤ L) (h4 : L ≤ 64)
    (h5 : ra = true → 3 ≤ L) (h6 : qtd ≤ ((62 ^ L.toNat : Nat) : Int)) :
    gerar_lista qtd L true ra s fuel =
      .ok (uniqueLoop qtd.toNat L.toNat ra s fuel []) := by
  rw [gerar_lista, if_neg (by omega),
    if_neg (by simp only [MIN_LENGTH, MAX_LENGTH]; omega),
    if_neg (by rintro ⟨hra, hlt⟩; exact absurd (h5 hra) (by omega)),
    if_neg (by rintro ⟨_, hlt⟩; rw [CHARSET_len] at hlt; exact absurd h6 (not_le.mpr (by exact_mod_cast hlt))),
    if_pos rfl]

theorem gerar_lista_eq_infeasible (qtd L : Int) (ra : Bool) (s : RandS) (fuel : Nat)
    (h1 : 1 ≤ qtd) (h2 : qtd ≤ 10000) (h3 : 1 ≤ L) (h4 : L ≤ 64)
    (h5 : ra = true → 3 ≤ L) (h6 : ((62 ^ L.toNat : Nat) : Int) < qtd) :
    gerar_lista qtd L true ra s fuel =
      .error (.infeasibleUniqueRequest qtd (CHARSET.length ^ L.toNat)) := by
  rw [gerar_lista, if_neg (by omega),
    if_neg (by simp only [MIN_LENGTH, MAX_LENGTH]; omega),
    if_neg (by rintro ⟨hra, hlt⟩; exact absurd (h5 hra) (by omega)),
    if_pos ⟨rfl, by rw [CHARSET_len]; exact_mod_cast h6⟩]

theorem gerar_lista_eq_plain (qtd L : Int) (ra : Bool) (s : RandS) (fuel : Nat)
    (h1 : 1 ≤ qtd) (h2 : qtd ≤ 10000) (h3 : 1 ≤ L) (h4 : L ≤ 64)
    (h5 : ra = true → 3 ≤ L) :
    gerar_lista qtd L false ra s fuel =
      .ok (some ((List.range qtd.toNat).map
        (fun i => senhaBody L.toNat ra (shiftS s (i * drawCost L.toNat ra))))) := by
  rw [gerar_lista, if_neg (by omega),
    if_neg (by simp only [MIN_LENGTH, MAX_LENGTH]; omega),
    if_neg (by rintro ⟨hra, hlt⟩; exact absurd (h5 hra) (by omega)),
    if_neg (by rintro ⟨hu, _⟩; exact Bool.noConfusion hu),
    if_neg (fun hu => Bool.noConfusion hu)]

theorem insertNew_len_lb (pw : List Char) (senhas : List (List Char)) :
    senhas.length ≤ (insertNew pw senhas).length := by
  unfold insertNew
  split <;> simp

theorem insertNew_len_ub (pw : List Char) (senhas : List (List Char)) :
    (insertNew pw senhas).length ≤ senhas.length + 1 := by
  unfold insertNew
  split <;> simp


theorem insertNew_nodup (pw : List Char) (senhas : List (List Char))
    (h : senhas.Nodup) : (insertNew pw senhas).Nodup := by
  unfold insertNew
  split_ifs with hmem
  · exact h
  · rw [List.nodup_append]
    refine ⟨h, List.nodup_singleton pw, ?_⟩
    intro a ha hb
    rw [List.mem_singleton] at hb
    subst hb
    exact hmem ha

theorem insertNew_mem {pw x : List Char} {senhas : List (List Char)} :
    x ∈ insertNew pw senhas ↔ x ∈ senhas ∨ x = pw := by
  unfold insertNew
  split_ifs with hmem
  · constructor
    · exact Or.inl
    · rintro (hx | rfl)
      · exact hx
      · exact hmem
  · simp

theorem foldl_insertNew_len_lb (l : List (List Char)) :
    ∀ init : List (List Char),
      init.length ≤ (l.foldl (fun senhas pw => insertNew pw senhas) init).length := by
  induction l with
  | nil => intro init; exact le_refl _
  | cons pw rest ih =>
    intro init
    exact le_trans (insertNew_len_lb pw init) (ih (insertNew pw init))

theorem uniqueLoop_some_inv (qtd n : Nat) (ra : Bool) :
    ∀ (fuel : Nat) (s : RandS) (senhas out : List (List Char)),
      senhas.length ≤ qtd → senhas.Nodup →
      (∀ pw ∈ senhas, validPassword n ra pw) →
      (ra = true → 3 ≤ n) →
      uniqueLoop qtd n ra s fuel senhas = some out →
      out.length = qtd ∧ out.Nodup ∧ ∀ pw ∈ out, validPassword n ra pw
  | 0, s, senhas, out, hle, hnd, hval, hra, h => by
    rw [uniqueLoop] at h
    split_ifs at h with hstop
    · injection h with h
      subst h
      exact ⟨le_antisymm hle hstop, hnd, hval⟩
  | fuel + 1, s, senhas, out, hle, hnd, hval, hra, h => by
    rw [uniqueLoop] at h
    split_ifs at h with hstop
    · injection h with h
      subst h
      exact ⟨le_antisymm hle hstop, hnd, hval⟩
    · refine uniqueLoop_some_inv qtd n ra fuel _ _ out ?_ ?_ ?_ hra h
      · exact le_trans (insertNew_len_ub _ _) (by omega)
      · exact insertNew_nodup _ _ hnd
      · intro pw hpw
        rcases insertNew_mem.mp hpw with hm | rfl
        · exact hval pw hm
        · exact senhaBody_valid n ra s hra

theorem uniqueLoop_none_bound (qtd n : Nat) (ra : Bool) :
    ∀ (fuel : Nat) (s : RandS) (senhas : List (List Char)),
      uniqueLoop qtd n ra s fuel senhas = none →
      ((drawSeq n ra s fuel).foldl (fun senhas pw => insertNew pw senhas) senhas).length < qtd
  | 0, s, senhas, h => by
    rw [uniqueLoop] at h
    split_ifs at h with hstop
    simpa [drawSeq] using not_le.mp hstop
  | fuel + 1, s, senhas, h => by
    rw [uniqueLoop] at h
    split_ifs at h with hstop
    simpa [drawSeq] using uniqueLoop_none_bound qtd n ra fuel _ _ h

theorem uniqueLoop_some_le_fold (qtd n : Nat) (ra : Bool) :
    ∀ (fuel : Nat) (s : RandS) (senhas out : List (List Char)),
      uniqueLoop qtd n ra s fuel senhas = some out →
      out.length ≤
        ((drawSeq n ra s fuel).foldl (fun senhas pw => insertNew pw senhas) senhas).length
  | 0, s, senhas, out, h => by
    rw [uniqueLoop] at h
    split_ifs at h with hstop
    injection h with h
    subst h
    simp [drawSeq]
  | fuel + 1, s, senhas, out, h => by
    rw [uniqueLoop] at h
    split_ifs at h with hstop
    · injection h with h
      subst h
      simpa [drawSeq] using
        le_trans (insertNew_len_lb (senhaBody n ra s) senhas)
          (foldl_insertNew_len_lb _ _)
    · simpa [drawSeq] using uniqueLoop_some_le_fold qtd n ra fuel _ _ out h

theorem uniqueLoop_some_of_distinct (qtd n : Nat) (ra : Bool) (s : RandS)
    (fuel : Nat) (h : qtd ≤ distinctCount (drawSeq n ra s fuel)) :
    ∃ out, uniqueLoop qtd n ra s fuel [] = some out := by
  cases hres : uniqueLoop qtd n ra s fuel [] with
  | some out => exact ⟨out, rfl⟩
  | none =>
    have hb := uniqueLoop_none_bound qtd n ra fuel s [] hres
    exact absurd h (not_le.mpr hb)

/-- Claim C3: a unique batch request with valid parameters and
`qtd ≤ 62 ^ length` succeeds as soon as the random source supplies at
least `qtd` distinct passwords within the attempt budget (an event of
probability one for a uniform source), and the result then consists of
exactly `qtd` pairwise-distinct passwords, each satisfying the
single-password contract for the policy. -/
theorem claim_C3_unique_batch (qtd L : Int) (ra : Bool) (s : RandS) (fuel : Nat)
    (h1 : 1 ≤ qtd) (h2 : qtd ≤ 10000) (h3 : 1 ≤ L) (h4 : L ≤ 64)
    (h5 : ra = true → 3 ≤ L) (h6 : qtd ≤ ((62 ^ L.toNat : Nat) : Int))
    (hdraws : qtd.toNat ≤ distinctCount (drawSeq L.toNat ra s fuel)) :
    ∃ out, gerar_lista qtd L true ra s fuel = .ok (some out) ∧
      out.length = qtd.toNat ∧ out.Nodup ∧
        ∀ pw ∈ out, validPassword L.toNat ra pw := by
  obtain ⟨out, hout⟩ := uniqueLoop_some_of_distinct qtd.toNat L.toNat ra s fuel hdraws
  obtain ⟨hlen, hnd, hval⟩ := uniqueLoop_some_inv qtd.toNat L.toNat ra fuel s [] out
    (by simp) List.nodup_nil (by simp) (fun hra => by have := h5 hra; omega) hout
  refine ⟨out, ?_, hlen, hnd, hval⟩
  rw [gerar_lista_eq_unique qtd L ra s fuel h1 h2 h3 h4 h5 h6, hout]

/-- Claim C3, witness: two unique single-character passwords on the
identity stream with fuel 2. -/
theorem claim_C3_witness :
    ∃ out, gerar_lista 2 1 true false idS 2 = .ok (some out) ∧
      out.length = (2 : Int).toNat ∧ out.Nodup ∧
        ∀ pw ∈ out, validPassword (1 : Int).toNat false pw :=
  claim_C3_unique_batch 2 1 false idS 2 (by decide) (by decide) (by decide)
    (by decide) (fun h => Bool.noConfusion h) (by decide) (by decide)

/-- Claim C4: under otherwise valid parameters, the unique branch computes
the capacity `62 ^ length` exactly (arbitrary-precision naturals, no
overflow for any length up to 64), fails with `infeasibleUniqueRequest`
exactly when `qtd` exceeds that capacity, and the error carries both the
requested quantity and the exact capacity. -/
theorem claim_C4_feasibility (qtd L : Int) (ra : Bool) (s : RandS) (fuel : Nat)
    (h1 : 1 ≤ qtd) (h2 : qtd ≤ 10000) (h3 : 1 ≤ L) (h4 : L ≤ 64)
    (h5 : ra = true → 3 ≤ L) :
    gerar_lista qtd L true ra s fuel =
        .error (.infeasibleUniqueRequest qtd (62 ^ L.toNat)) ↔
      ((62 ^ L.toNat : Nat) : Int) < qtd := by
  constructor
  · intro h
    by_contra hc
    rw [gerar_lista_eq_unique qtd L ra s fuel h1 h2 h3 h4 h5 (not_lt.mp hc)] at h
    exact Except.noConfusion h
  · intro h
    rw [gerar_lista_eq_infeasible qtd L ra s fuel h1 h2 h3 h4 h5 h, CHARSET_len]

/-- Claim C4, witness: requesting 100 unique passwords of length 1 fails
with the error naming the request (100) and the capacity (62). -/
theorem claim_C4_witness :
    gerar_lista 100 1 true false zeroS 0 =
      .error (.infeasibleUniqueRequest 100 (62 ^ (1 : Int).toNat)) :=
  (claim_C4_feasibility 100 1 false zeroS 0 (by decide) (by decide) (by decide)
    (by decide) (fun h => Bool.noConfusion h)).mpr (by decide)

/-- Claim C5: a non-unique batch request with valid parameters succeeds on
every run of the random source and returns exactly `qtd` passwords, the
`i`-th being the one generated by the `i`-th independent call of the
single-password body (generation order, duplicates retained, no
deduplication), each satisfying the single-password contract. -/
theorem claim_C5_plain_batch (qtd L : Int) (ra : Bool) (s : RandS) (fuel : Nat)
    (h1 : 1 ≤ qtd) (h2 : qtd ≤ 10000) (h3 : 1 ≤ L) (h4 : L ≤ 64)
    (h5 : ra = true → 3 ≤ L) :
    ∃ out, gerar_lista qtd L false ra s fuel = .ok (some out) ∧
      out.length = qtd.toNat ∧
        (∀ pw ∈ out, validPassword L.toNat ra pw) ∧
          ∀ i < qtd.toNat,
            out[i]? = some (senhaBody L.toNat ra
              (shiftS s (i * drawCost L.toNat ra))) := by
  refine ⟨_, gerar_lista_eq_plain qtd L ra s fuel h1 h2 h3 h4 h5, by simp, ?_, ?_⟩
  · intro pw hpw
    rw [List.mem_map] at hpw
    obtain ⟨i, _, hi⟩ := hpw
    exact hi ▸ senhaBody_valid L.toNat ra _ (fun hra => by have := h5 hra; omega)
  · intro i hi
    simp [hi]

/-- Claim C5, witness: three passwords of length 1 on the all-zeros
stream; the batch keeps all three (duplicate) entries. -/
theorem claim_C5_witness :
    ∃ out, gerar_lista 3 1 false false zeroS 0 = .ok (some out) ∧
      out.length = (3 : Int).toNat ∧
        (∀ pw ∈ out, validPassword (1 : Int).toNat false pw) ∧
          ∀ i < (3 : Int).toNat,
            out[i]? = some (senhaBody (1 : Int).toNat false
              (shiftS zeroS (i * drawCost (1 : Int).toNat false))) :=
  claim_C5_plain_batch 3 1 false zeroS 0 (by decide) (by decide) (by decide)
    (by decide) (fun h => Bool.noConfusion h)

/-- Claim C7: `gerar_lista` rejects every count outside `[1, 10000]` with
`invalidCount` (before any other check), and inside that range applies the
same length and policy validation as `gerar_senha`, failing with the same
error kinds `invalidLength` and `insufficientLengthForPolicy`. -/
theorem claim_C7_batch_validation (qtd L : Int) (u ra : Bool) (s : RandS)
    (fuel : Nat) :
    (qtd < 1 ∨ 10000 < qtd →
        gerar_lista qtd L u ra s fuel = .error .invalidCount) ∧
      (1 ≤ qtd → qtd ≤ 10000 → L < 1 ∨ 64 < L →
        gerar_lista qtd L u ra s fuel = .error .invalidLength) ∧
      (1 ≤ qtd → qtd ≤ 10000 → 1 ≤ L → L ≤ 64 → ra = true → L < 3 →
        gerar_lista qtd L u true s fuel = .error .insufficientLengthForPolicy) := by
  refine ⟨?_, ?_, ?_⟩
  · intro h
    rw [gerar_lista, if_pos h]
  · intro hq1 hq2 h
    rw [gerar_lista, if_neg (by omega),
      if_pos (by simp only [MIN_LENGTH, MAX_LENGTH]; omega)]
  · intro hq1 hq2 hL1 hL2 hra hL3
    rw [gerar_lista, if_neg (by omega),
      if_neg (by simp only [MIN_LENGTH, MAX_LENGTH]; omega), if_pos ⟨rfl, hL3⟩]

/-- Claim C7, witness: count 0 and count 10001 are rejected as
`invalidCount`; with a valid count, length 65 is rejected as
`invalidLength` and length 2 under the policy as
`insufficientLengthForPolicy`. -/
theorem claim_C7_witness :
    gerar_lista 0 5 false false zeroS 0 = .error .invalidCount ∧
      gerar_lista 10001 5 true true zeroS 0 = .error .invalidCount ∧
        gerar_lista 10 65 true false zeroS 0 = .error .invalidLength ∧
          gerar_lista 10 2 false true zeroS 0 = .error .insufficientLengthForPolicy :=
  ⟨(claim_C7_batch_validation 0 5 false false zeroS 0).1 (by decide),
    (claim_C7_batch_validation 10001 5 true true zeroS 0).1 (by decide),
    (claim_C7_batch_validation 10 65 true false zeroS 0).2.1 (by decide) (by decide)
      (by decide),
    (claim_C7_batch_validation 10 2 false true zeroS 0).2.2 (by decide) (by decide)
      (by decide) (by decide) rfl (by decide)⟩

theorem zeroS_loop_stuck (qtd : Nat) (hq : 2 ≤ qtd) :
    ∀ fuel, uniqueLoop qtd 1 false zeroS fuel [senhaBody 1 false zeroS] = none
  | 0 => by
    rw [uniqueLoop, if_neg (by simp only [List.length_singleton]; omega)]
  | fuel + 1 => by
    rw [uniqueLoop, if_neg (by simp only [List.length_singleton]; omega)]
    exact zeroS_loop_stuck qtd hq fuel

/-- Claim C8, counterexample: `count ≤ capacity` does not by itself make
the rejection-sampling loop terminate. The request `qtd = 2, length = 1`
is feasible (2 ≤ 62), yet on the run whose draws all repeat the same
password the loop never reaches two distinct passwords, for any number of
attempts. -/
theorem claim_C8_counterexample : divergesOnZeroS := by
  intro fuel
  have hnone : uniqueLoop 2 1 false zeroS fuel [] = none := by
    cases fuel with
    | zero => rfl
    | succ f =>
      rw [uniqueLoop, if_neg (by decide)]
      exact zeroS_loop_stuck 2 (by omega) f
  rw [gerar_lista_eq_unique 2 1 false zeroS fuel (by decide) (by decide) (by decide)
    (by decide) (fun h => Bool.noConfusion h) (by decide)]
  exact congrArg Except.ok hnone

/-- Claim C8 as amended: for a feasible unique request the loop is not
bounded in attempts; it terminates exactly on those runs of the random
source that supply at least `qtd` distinct passwords within the attempt
budget — an event that `count ≤ capacity` makes possible (and, for a
uniform source, almost sure), but does not force on every run. -/
theorem claim_C8_termination_iff (qtd L : Int) (ra : Bool) (s : RandS)
    (fuel : Nat) (h1 : 1 ≤ qtd) (h2 : qtd ≤ 10000) (h3 : 1 ≤ L) (h4 : L ≤ 64)
    (h5 : ra = true → 3 ≤ L) (h6 : qtd ≤ ((62 ^ L.toNat : Nat) : Int)) :
    (∃ out, gerar_lista qtd L true ra s fuel = .ok (some out)) ↔
      qtd.toNat ≤ distinctCount (drawSeq L.toNat ra s fuel) := by
  rw [gerar_lista_eq_unique qtd L ra s fuel h1 h2 h3 h4 h5 h6]
  constructor
  · rintro ⟨out, hout⟩
    injection hout with hout
    have hlen := (uniqueLoop_some_inv qtd.toNat L.toNat ra fuel s [] out (by simp)
      List.nodup_nil (by simp) (fun hra => by have := h5 hra; omega) hout).1
    have hle := uniqueLoop_some_le_fold qtd.toNat L.toNat ra fuel s [] out hout
    rw [hlen] at hle
    exact hle
  · intro hd
    obtain ⟨out, hout⟩ := uniqueLoop_some_of_distinct qtd.toNat L.toNat ra s fuel hd
    exact ⟨out, by rw [hout]⟩

/-- Claim C8, witness: the amended characterization at the concrete
feasible request `qtd = 2, length = 1` on the identity stream with two
attempts. -/
theorem claim_C8_witness :
    (∃ out, gerar_lista 2 1 true false idS 2 = .ok (some out)) ↔
      (2 : Int).toNat ≤ distinctCount (drawSeq (1 : Int).toNat false idS 2) :=
  claim_C8_termination_iff 2 1 false idS 2 (by decide) (by decide) (by decide)
    (by decide) (fun h => Bool.noConfusion h) (by decide)

theorem gerar_lista_ok_inv {qtd L : Int} {u ra : Bool} {s : RandS} {fuel : Nat}
    {out : List (List Char)}
    (h : gerar_lista qtd L u ra s fuel = .ok (some out)) :
    1 ≤ qtd ∧ qtd ≤ 10000 ∧ 1 ≤ L ∧ L ≤ 64 ∧ (ra = true → 3 ≤ L) ∧
      (uniqueLoop qtd.toNat L.toNat ra s fuel [] = some out ∨
        out = (List.range qtd.toNat).map
          (fun i => senhaBody L.toNat ra (shiftS s (i * drawCost L.toNat ra)))) := by
  by_cases hq : qtd < 1 ∨ 10000 < qtd
  · rw [gerar_lista, if_pos hq] at h
    exact Except.noConfusion h
  by_cases hL : L < MIN_LENGTH ∨ MAX_LENGTH < L
  · rw [gerar_lista, if_neg hq, if_pos hL] at h
    exact Except.noConfusion h
  by_cases hra : ra = true ∧ L < 3
  · rw [gerar_lista, if_neg hq, if_neg hL, if_pos hra] at h
    exact Except.noConfusion h
  by_cases hfe : u = true ∧ (CHARSET.length ^ L.toNat : Int) < qtd
  · rw [gerar_lista, if_neg hq, if_neg hL, if_neg hra, if_pos hfe] at h
    exact Except.noConfusion h
  push_neg at hq hL hra
  simp only [MIN_LENGTH, MAX_LENGTH] at hL
  by_cases hu : u = true
  · rw [gerar_lista, if_neg ?hq0, if_neg ?hL0, if_neg ?hra0, if_neg hfe, if_pos hu] at h
    case hq0 => omega
    case hL0 => simp only [MIN_LENGTH, MAX_LENGTH]; omega
    case hra0 => rintro ⟨hc1, hc2⟩; exact absurd (hra hc1) (by omega)
    injection h with h
    exact ⟨by omega, by omega, by omega, by omega, hra, Or.inl h⟩
  · rw [gerar_lista, if_neg ?hq1, if_neg ?hL1, if_neg ?hra1, if_neg hfe, if_neg hu] at h
    case hq1 => omega
    case hL1 => simp only [MIN_LENGTH, MAX_LENGTH]; omega
    case hra1 => rintro ⟨hc1, hc2⟩; exact absurd (hra hc1) (by omega)
    injection h with h
    injection h with h
    exact ⟨by omega, by omega, by omega, by omega, hra, Or.inr h.symm⟩

/-- Claim C9: the alphabet is the fixed ordered concatenation of the 10
digits, the 26 uppercase letters and the 26 lowercase letters, has
exactly 62 pairwise-distinct characters, and every character of every
password returned by `gerar_senha` or `gerar_lista`, under any policy,
belongs to it. -/
theorem claim_C9_alphabet :
    CHARSET = digits ++ ascii_uppercase ++ ascii_lowercase ∧
      CHARSET.length = 62 ∧ CHARSET.Nodup ∧
      (∀ (L : Int) (ra : Bool) (s : RandS) (pw : List Char),
        gerar_senha L ra s = .ok pw → ∀ c ∈ pw, c ∈ CHARSET) ∧
      (∀ (qtd L : Int) (u ra : Bool) (s : RandS) (fuel : Nat)
        (out : List (List Char)),
        gerar_lista qtd L u ra s fuel = .ok (some out) →
          ∀ pw ∈ out, ∀ c ∈ pw, c ∈ CHARSET) := by
  refine ⟨rfl, rfl, by decide, ?_, ?_⟩
  · intro L ra s pw h c hc
    obtain ⟨-, -, -, hpw⟩ := gerar_senha_ok_inv h
    exact senhaBody_mem_CHARSET _ _ _ c (hpw ▸ hc)
  · intro qtd L u ra s fuel out h pw hpw c hc
    obtain ⟨h1, h2, h3, h4, h5, hcase⟩ := gerar_lista_ok_inv h
    rcases hcase with hloop | hplain
    · have hval := (uniqueLoop_some_inv qtd.toNat L.toNat ra fuel s [] out (by simp)
        List.nodup_nil (by simp) (fun hra => by have := h5 hra; omega) hloop).2.2
      exact (hval pw hpw).2.1 c hc
    · subst hplain
      rw [List.mem_map] at hpw
      obtain ⟨i, _, hi⟩ := hpw
      exact senhaBody_mem_CHARSET _ _ _ c (hi ▸ hc)

/-- Claim C9, witness: the characters of the concrete password generated
at length 5 on the identity stream all belong to `CHARSET`. -/
theorem claim_C9_witness :
    ∀ c ∈ senhaBody (5 : Int).toNat false idS, c ∈ CHARSET :=
  claim_C9_alphabet.2.2.2.1 5 false idS (senhaBody (5 : Int).toNat false idS) rfl

/-- Claim C10: every validation of `gerar_lista` runs before any password
is generated: a call that fails does so identically on every run of the
random source and with every attempt budget, so the failure (and its
kind) is a function of the parameters alone and no part of a result set
ever exists. -/
theorem claim_C10_validation_first (qtd L : Int) (u ra : Bool) (s : RandS)
    (fuel : Nat) (e : PwError)
    (h : gerar_lista qtd L u ra s fuel = .error e) (t : RandS) (fuel2 : Nat) :
    gerar_lista qtd L u ra t fuel2 = .error e := by
  by_cases hq : qtd < 1 ∨ 10000 < qtd
  · rw [gerar_lista, if_pos hq] at h
    rw [gerar_lista, if_pos hq]
    exact h
  by_cases hL : L < MIN_LENGTH ∨ MAX_LENGTH < L
  · rw [gerar_lista, if_neg hq, if_pos hL] at h
    rw [gerar_lista, if_neg hq, if_pos hL]
    exact h
  by_cases hra : ra = true ∧ L < 3
  · rw [gerar_lista, if_neg hq, if_neg hL, if_pos hra] at h
    rw [gerar_lista, if_neg hq, if_neg hL, if_pos hra]
    exact h
  by_cases hfe : u = true ∧ (CHARSET.length ^ L.toNat : Int) < qtd
  · rw [gerar_lista, if_neg hq, if_neg hL, if_neg hra, if_pos hfe] at h
    rw [gerar_lista, if_neg hq, if_neg hL, if_neg hra, if_pos hfe]
    exact h
  by_cases hu : u = true
  · rw [gerar_lista, if_neg hq, if_neg hL, if_neg hra, if_neg hfe, if_pos hu] at h
    exact Except.noConfusion h
  · rw [gerar_lista, if_neg hq, if_neg hL, if_neg hra, if_neg hfe, if_neg hu] at h
    exact Except.noConfusion h

/-- Claim C10, witness: the count-validation failure observed on one run
is reproduced verbatim on a different stream and attempt budget. -/
theorem claim_C10_witness :
    gerar_lista 0 5 false false idS 7 = .error .invalidCount :=
  claim_C10_validation_first 0 5 false false zeroS 0 .invalidCount rfl idS 7

/-- Claim C3, counterexample: the feasible unique request `qtd = 3,
length = 1` (capacity 62) does not succeed on every run of the random
source: on the all-zeros run every draw repeats one password and the
call never returns a batch, for any number of attempts. -/
theorem claim_C3_counterexample : divergesOnZeroS3 := by
  intro fuel
  have hnone : uniqueLoop 3 1 false zeroS fuel [] = none := by
    cases fuel with
    | zero => rfl
    | succ f =>
      rw [uniqueLoop, if_neg (by decide)]
      exact zeroS_loop_stuck 3 (by omega) f
  rw [gerar_lista_eq_unique 3 1 false zeroS fuel (by decide) (by decide) (by decide)
    (by decide) (fun h => Bool.noConfusion h) (by decide)]
  exact congrArg Except.ok hnone
